import Mathlib

/-!
# StudyGuideGenerator: a verification development

Shallow embedding of `backend/server.js` (the Express service) and of the
event handlers of `frontend/src/App.js` (the React form), with the properties
of the specification stated and proved over the embedding.

Conventions of the embedding.

* A JavaScript string is the list of its UTF-16 code units (`JSString`), so
  that `length`, `substring`, `startsWith`, `trim` and `replace` act on code
  units exactly as in the source.
* Collaborators that the program treats as black boxes (the chat-completion
  API, the PDF text extractor, the HTTP client of the browser) are function
  parameters returning either a failure or a value.
* An `async` handler is a function that returns the response it sends together
  with the list of calls it made to the completion API. Its `try` block is a
  function of its own, which returns the response sent or the message of the
  error thrown; the handler adds the `catch` block.
* What the JavaScript engine does with floating point numbers and with its call
  stack is a parameter (`Engine`), over which the theorems quantify.
-/

namespace StudyGuide

/-! ## JavaScript strings -/

/-- A JavaScript string: the sequence of its UTF-16 code units. -/
abbrev JSString := List Nat

/-- The JavaScript string of a source literal (all literals of the program are
in the Basic Multilingual Plane, one code unit per character). -/
def lit (s : String) : JSString := s.toList.map Char.toNat

/-! ## `truncateText` (server.js, lines 35-39) -/

/-- The marker appended by `truncateText`: the literal `'... [truncated]'`. -/
def truncatedMarker : JSString := lit "... [truncated]"

/-- Source: `function truncateText(text, maxLength = 10000)`.
An omitted argument (`none`) takes the default `10000`; `substring(0, n)` for a
non-negative integer `n` is `List.take n`. -/
def truncateText (text : JSString) (maxLength : Option Nat) : JSString :=
  let maxLength := maxLength.getD 10000
  if text.length ≤ maxLength then text
  else text.take maxLength ++ truncatedMarker

/-! ## `String.prototype.trim` -/

/-- The code units removed by `trim`: ECMAScript `WhiteSpace` (TAB, VT, FF,
SP, NBSP, ZWNBSP and the Unicode space separators) and `LineTerminator`
(LF, CR, LS, PS). -/
def isWhiteSpace (c : Nat) : Bool :=
  c = 9 || c = 10 || c = 11 || c = 12 || c = 13 || c = 32 || c = 160
    || c = 0x1680 || (0x2000 ≤ c && c ≤ 0x200A) || c = 0x2028 || c = 0x2029
    || c = 0x202F || c = 0x205F || c = 0x3000 || c = 0xFEFF

/-- The method `trim()`: white space is removed from both ends. -/
def trim (s : JSString) : JSString :=
  ((s.dropWhile isWhiteSpace).reverse.dropWhile isWhiteSpace).reverse

/-- A text is blank when it is empty or consists only of white space. -/
def isBlank (s : JSString) : Bool := s.all isWhiteSpace

/-! ## `String.prototype.replace` with the patterns of the program -/

/-- The call `s.replace(/<pat>\n?/g, '')` for a literal, non-empty `pat`: scanning
from the left, every occurrence of `pat`, together with one line feed directly
after it when there is one, is deleted and the scan resumes after the deleted
part. The first argument counts the code units of the current match that are
still to be deleted (`0` when the scan is not inside a match). -/
def removeAll (pat : JSString) : Nat → JSString → JSString
  | _, [] => []
  | skip + 1, _ :: rest => removeAll pat skip rest
  | 0, c :: rest =>
    if pat.isPrefixOf (c :: rest) then
      removeAll pat
        (pat.length - 1 + (if (rest.drop (pat.length - 1)).head? = some 10 then 1 else 0))
        rest
    else c :: removeAll pat 0 rest

/-- The pattern of the regular expression `/```json\n?/g` without its optional
line feed. -/
def jsonFence : JSString := lit "```json"

/-- The pattern of the regular expression `/```\n?/g` without its optional line
feed. -/
def fence : JSString := lit "```"

/-- Lines 96-101 of server.js: the text handed to `JSON.parse`. -/
def stripFences (responseText : JSString) : JSString :=
  if jsonFence.isPrefixOf responseText then
    trim (removeAll fence 0 (removeAll jsonFence 0 responseText))
  else if fence.isPrefixOf responseText then
    trim (removeAll fence 0 responseText)
  else responseText

/-! ## JSON values and `JSON.parse`

`JSON.parse` is a built-in of the language. It is modelled by a recursive
descent parser for the JSON grammar (ECMA-404). A number is kept as the text of
its token, an object as the list of its members in source order. -/

/-- A JSON value. -/
inductive JSON where
  | null
  | bool (b : Bool)
  | num (token : JSString)
  | str (s : JSString)
  | arr (items : List JSON)
  | obj (members : List (JSString × JSON))

/-- Result of a parser that runs on a recursion budget. -/
inductive ParseResult (α : Type) where
  | ok (value : α) (rest : JSString)
  | syntaxError
  | outOfFuel

/-- JSON white space: space, tab, line feed, carriage return. -/
def isJsonWs (c : Nat) : Bool := c = 32 || c = 9 || c = 10 || c = 13

/-- Skips JSON white space. -/
def skipWs (s : JSString) : JSString := s.dropWhile isJsonWs

/-- Decimal digits `0`-`9`. -/
def isDigit (c : Nat) : Bool := 48 ≤ c && c ≤ 57

/-- Value of a hexadecimal digit. -/
def hexVal (c : Nat) : Option Nat :=
  if 48 ≤ c ∧ c ≤ 57 then some (c - 48)
  else if 97 ≤ c ∧ c ≤ 102 then some (c - 87)
  else if 65 ≤ c ∧ c ≤ 70 then some (c - 55)
  else none

/-- Value of the four hexadecimal digits of a `\u` escape. -/
def hex4 (a b c d : Nat) : Option Nat :=
  match hexVal a, hexVal b, hexVal c, hexVal d with
  | some x, some y, some z, some w => some (x * 4096 + y * 256 + z * 16 + w)
  | _, _, _, _ => none

/-- The code unit denoted by a one-letter escape: quote, backslash, slash, `b`,
`f`, `n`, `r`, `t`. -/
def escapeChar (e : Nat) : Option Nat :=
  if e = 34 then some 34 else if e = 92 then some 92
  else if e = 47 then some 47 else if e = 98 then some 8
  else if e = 102 then some 12 else if e = 110 then some 10
  else if e = 114 then some 13 else if e = 116 then some 9
  else none

/-- Puts a decoded code unit in front of the rest of a string. -/
def consTo (u : Nat) : Option (JSString × JSString) → Option (JSString × JSString)
  | some r => some (u :: r.1, r.2)
  | none => none

/-- Reads a string after its opening quote: returns the decoded code units and
the input after the closing quote. Control characters must be escaped. -/
def parseStringBody : JSString → Option (JSString × JSString)
  | [] => none
  | c :: rest =>
    if c = 34 then some ([], rest)
    else if c = 92 then
      match rest with
      | [] => none
      | e :: rest2 =>
        if e = 117 then
          match rest2 with
          | a :: b :: c2 :: d :: rest3 =>
            match hex4 a b c2 d with
            | some u => consTo u (parseStringBody rest3)
            | none => none
          | _ => none
        else
          match escapeChar e with
          | some u => consTo u (parseStringBody rest2)
          | none => none
    else if c < 32 then none
    else consTo c (parseStringBody rest)

/-- Optional minus sign of a number. -/
def lexSign (s : JSString) : JSString × JSString :=
  match s with
  | [] => ([], [])
  | c :: r => if c = 45 then ([45], r) else ([], c :: r)

/-- Integer part of a number: `0`, or a non-zero digit followed by digits. -/
def lexInt (s : JSString) : Option (JSString × JSString) :=
  match s with
  | [] => none
  | c :: r =>
    if c = 48 then some ([48], r)
    else if isDigit c then some (c :: (r.span isDigit).1, (r.span isDigit).2)
    else none

/-- Optional fraction of a number: a dot followed by at least one digit. -/
def lexFrac (s : JSString) : Option (JSString × JSString) :=
  match s with
  | [] => some ([], [])
  | c :: r =>
    if c = 46 then
      if (r.span isDigit).1 = [] then none
      else some (46 :: (r.span isDigit).1, (r.span isDigit).2)
    else some ([], c :: r)

/-- Optional sign of an exponent. -/
def lexExpSign (s : JSString) : JSString × JSString :=
  match s with
  | [] => ([], [])
  | x :: r => if x = 43 ∨ x = 45 then ([x], r) else ([], x :: r)

/-- Optional exponent of a number: `e` or `E`, an optional sign, at least one
digit. -/
def lexExp (s : JSString) : Option (JSString × JSString) :=
  match s with
  | [] => some ([], [])
  | c :: r =>
    if c = 101 ∨ c = 69 then
      if ((lexExpSign r).2.span isDigit).1 = [] then none
      else some (c :: (lexExpSign r).1 ++ ((lexExpSign r).2.span isDigit).1,
        ((lexExpSign r).2.span isDigit).2)
    else some ([], c :: r)

/-- Reads a number token: returns the text of the token and the remaining
input. -/
def parseNumber (s : JSString) : Option (JSString × JSString) :=
  match lexInt (lexSign s).2 with
  | none => none
  | some i =>
    match lexFrac i.2 with
    | none => none
    | some f =>
      match lexExp f.2 with
      | none => none
      | some e => some ((lexSign s).1 ++ i.1 ++ f.1 ++ e.1, e.2)

mutual
/-- Reads one JSON value, white space before it included. -/
def parseValue : Nat → JSString → ParseResult JSON
  | 0, _ => .outOfFuel
  | fuel + 1, s =>
    match skipWs s with
    | [] => .syntaxError
    | c :: rest =>
      if c = 123 then
        match skipWs rest with
        | [] => .syntaxError
        | d :: rest2 =>
          if d = 125 then .ok (.obj []) rest2
          else
            match parseMembers fuel (d :: rest2) with
            | .ok ms r => .ok (.obj ms) r
            | .syntaxError => .syntaxError
            | .outOfFuel => .outOfFuel
      else if c = 91 then
        match skipWs rest with
        | [] => .syntaxError
        | d :: rest2 =>
          if d = 93 then .ok (.arr []) rest2
          else
            match parseElements fuel (d :: rest2) with
            | .ok vs r => .ok (.arr vs) r
            | .syntaxError => .syntaxError
            | .outOfFuel => .outOfFuel
      else if c = 34 then
        match parseStringBody rest with
        | some r => .ok (.str r.1) r.2
        | none => .syntaxError
      else if (lit "null").isPrefixOf (c :: rest) then .ok .null (rest.drop 3)
      else if (lit "true").isPrefixOf (c :: rest) then .ok (.bool true) (rest.drop 3)
      else if (lit "false").isPrefixOf (c :: rest) then .ok (.bool false) (rest.drop 4)
      else
        match parseNumber (c :: rest) with
        | some r => .ok (.num r.1) r.2
        | none => .syntaxError
/-- Reads the elements of a non-empty array up to and including `]`. -/
def parseElements : Nat → JSString → ParseResult (List JSON)
  | 0, _ => .outOfFuel
  | fuel + 1, s =>
    match parseValue fuel s with
    | .syntaxError => .syntaxError
    | .outOfFuel => .outOfFuel
    | .ok v r =>
      match skipWs r with
      | [] => .syntaxError
      | c :: rest =>
        if c = 93 then .ok [v] rest
        else if c = 44 then
          match parseElements fuel rest with
          | .ok vs r2 => .ok (v :: vs) r2
          | .syntaxError => .syntaxError
          | .outOfFuel => .outOfFuel
        else .syntaxError
/-- Reads the members of a non-empty object up to and including the closing
brace. -/
def parseMembers : Nat → JSString → ParseResult (List (JSString × JSON))
  | 0, _ => .outOfFuel
  | fuel + 1, s =>
    match skipWs s with
    | [] => .syntaxError
    | q :: afterQuote =>
      if q = 34 then
        match parseStringBody afterQuote with
        | none => .syntaxError
        | some k =>
          match skipWs k.2 with
          | [] => .syntaxError
          | colon :: afterColon =>
            if colon = 58 then
              match parseValue fuel afterColon with
              | .syntaxError => .syntaxError
              | .outOfFuel => .outOfFuel
              | .ok v r =>
                match skipWs r with
                | [] => .syntaxError
                | c :: rest =>
                  if c = 125 then .ok [(k.1, v)] rest
                  else if c = 44 then
                    match parseMembers fuel rest with
                    | .ok ms r2 => .ok ((k.1, v) :: ms) r2
                    | .syntaxError => .syntaxError
                    | .outOfFuel => .outOfFuel
                  else .syntaxError
            else .syntaxError
      else .syntaxError
end

/-- The built-in `JSON.parse(text)`: `some v` when `text` is one JSON value
surrounded by optional JSON white space, `none` when it throws `SyntaxError`.
The recursion budget `2 * text.length + 2` is never exhausted (see
`parseValue_fuel_adequate`). -/
def JSONparse (text : JSString) : Option JSON :=
  match parseValue (2 * text.length + 2) text with
  | .ok v rest => if skipWs rest = [] then some v else none
  | _ => none

/-- Whether a JSON value is an object with a member named `key`. -/
def JSON.hasField (key : JSString) : JSON → Bool
  | .obj members => members.any (fun m => m.1 == key)
  | _ => false

/-- Whether a JSON value is an object that has the four fields of a study
guide. -/
def isStudyGuideShape (v : JSON) : Bool :=
  v.hasField (lit "keyConcepts") && v.hasField (lit "explanations")
    && v.hasField (lit "practiceQuestions") && v.hasField (lit "cheatSheet")

/-! ## The completion call: `generateStudyGuide` (server.js, lines 42-109) -/

/-- Outcome of `openai.chat.completions.create`: the call throws (or its promise
rejects), or it returns a completion whose `choices[0].message.content` is a
string or `null`. -/
inductive ApiResult where
  | failure
  | message (content : Option JSString)

/-- The prompt template before the interpolated lecture notes. -/
def promptHead : JSString :=
  lit ("You are an expert study guide generator. Convert the following lecture "
    ++ "notes into a comprehensive study guide.\n\nLECTURE NOTES:\n")

/-- The prompt template after the interpolated lecture notes. -/
def promptTail : JSString :=
  lit ("\n\nGenerate a structured study guide with the following sections:\n\n"
    ++ "1. KEY CONCEPTS: List the most important concepts as bullet points (5-10 concepts)\n"
    ++ "2. EXPLANATIONS: Provide short, clear explanations for each key concept (2-3 sentences each)\n"
    ++ "3. PRACTICE QUESTIONS: Create 5-8 practice questions with concise answers "
    ++ "(questions should test understanding of the material)\n"
    ++ "4. CHEAT SHEET: A condensed summary with the most critical information in a "
    ++ "quick-reference format\n\n"
    ++ "Format your response as valid JSON with this exact structure:\n"
    ++ "\x7b\n  \"keyConcepts\": [\"concept1\", \"concept2\", ...],\n"
    ++ "  \"explanations\": \x7b\n    \"concept1\": \"explanation text\",\n"
    ++ "    \"concept2\": \"explanation text\",\n    ...\n  \x7d,\n"
    ++ "  \"practiceQuestions\": [\n    \x7b\n      \"question\": \"question text\",\n"
    ++ "      \"answer\": \"answer text\"\n    \x7d,\n    ...\n  ],\n"
    ++ "  \"cheatSheet\": \"condensed summary text\"\n\x7d")

/-- The message of the error thrown by `generateStudyGuide`. -/
def generateErrorMessage : JSString :=
  lit "Failed to generate study guide. Please check your API key and try again."

/-- Source: `async function generateStudyGuide(text)`. The completion API is the
parameter `api`, applied to the user prompt (model, system message, temperature
and token limit are constants of the program). The result is the returned
value or the message of the thrown error, together with the prompts sent to
the API. Everything from the API call to `JSON.parse` is inside the `try`
block, so a rejected call, a `null` content (whose `.trim()` throws) and a
`SyntaxError` all end in the `catch` block. -/
def generateStudyGuide (api : JSString → ApiResult) (text : JSString) :
    Except JSString JSON × List JSString :=
  let truncatedText := truncateText text none
  let prompt := promptHead ++ truncatedText ++ promptTail
  match api prompt with
  | .failure => (.error generateErrorMessage, [prompt])
  | .message none => (.error generateErrorMessage, [prompt])
  | .message (some content) =>
    let responseText := trim content
    let jsonText := stripFences responseText
    match JSONparse jsonText with
    | some studyGuide => (.ok studyGuide, [prompt])
    | none => (.error generateErrorMessage, [prompt])

/-- The prompt sent for a text: the template with the truncated text in it. -/
def promptFor (text : JSString) : JSString :=
  promptHead ++ truncateText text none ++ promptTail

/-- A JSON text in a fence opened by three backticks, `json` and a line feed and
closed by three backticks. -/
def wrapJsonFence (json : JSString) : JSString := lit "```json\n" ++ json ++ lit "```"

/-- A JSON text in a plain fence of three backticks. -/
def wrapPlainFence (json : JSString) : JSString := lit "```" ++ json ++ lit "```"

/-! ## `res.json`: serialisation of the parsed value

`res.json(v)` sends `JSON.stringify(v)`. The value `v` is what `JSON.parse`
built: numbers are doubles, an object has each key once (the last value given
to a key, at the place where the key first appeared) and lists its array-index
keys first, in ascending order. The two things the embedding does not compute,
the conversion of a number token to a double and back to text, and the
exhaustion of the call stack by `JSON.stringify`, are the fields of `Engine`. -/

/-- Behaviour of the JavaScript engine that is not computed here.
`printNumber token` is the text `JSON.stringify` prints for the double that
`JSON.parse` reads from a number token, `none` when that double is not finite
(it is printed as `null`). `stringifyError v` is the message of the error that
`JSON.stringify` throws on `v` (a `RangeError` when the call stack is
exhausted), `none` when it returns. -/
structure Engine where
  printNumber : JSString → Option JSString
  stringifyError : JSON → Option JSString

/-- The array index a property key denotes, if any: a canonical decimal numeral
of value at most `2^32 - 2`. -/
def arrayIndex (key : JSString) : Option Nat :=
  match key with
  | [] => none
  | c :: rest =>
    if c = 48 then (if rest = [] then some 0 else none)
    else if (c :: rest).all isDigit then
      if (c :: rest).foldl (fun acc d => acc * 10 + (d - 48)) 0 ≤ 4294967294 then
        some ((c :: rest).foldl (fun acc d => acc * 10 + (d - 48)) 0)
      else none
    else none

/-- Defines a property on an object under construction: a key already there
keeps its place and takes the new value, a new key goes to the end. -/
def setProperty (props : List (JSString × JSON)) (m : JSString × JSON) :
    List (JSString × JSON) :=
  if props.any (fun p => p.1 == m.1) then
    props.map (fun p => if p.1 = m.1 then (p.1, m.2) else p)
  else props ++ [m]

/-- The properties of the object built from the members of a JSON object, in
creation order. -/
def ownProperties (members : List (JSString × JSON)) : List (JSString × JSON) :=
  members.foldl setProperty []

/-- The order in which the properties of an object are enumerated: array
indices in ascending order, then the other keys in creation order. -/
def enumerationOrder (props : List (JSString × JSON)) : List (JSString × JSON) :=
  (props.filter (fun p => (arrayIndex p.1).isSome)).insertionSort
      (fun a b => (arrayIndex a.1).getD 0 ≤ (arrayIndex b.1).getD 0)
    ++ props.filter (fun p => (arrayIndex p.1).isNone)

mutual
/-- The JSON value that `JSON.stringify` writes for a parsed value. -/
def stringified (e : Engine) : JSON → JSON
  | .null => .null
  | .bool b => .bool b
  | .num token =>
    match e.printNumber token with
    | some printed => .num printed
    | none => .null
  | .str s => .str s
  | .arr items => .arr (stringifiedItems e items)
  | .obj members => .obj (enumerationOrder (ownProperties (stringifiedMembers e members)))
/-- The elements of an array, each as `JSON.stringify` writes it. -/
def stringifiedItems (e : Engine) : List JSON → List JSON
  | [] => []
  | v :: vs => stringified e v :: stringifiedItems e vs
/-- The members of an object, each value as `JSON.stringify` writes it. -/
def stringifiedMembers (e : Engine) : List (JSString × JSON) → List (JSString × JSON)
  | [] => []
  | (k, v) :: ms => (k, stringified e v) :: stringifiedMembers e ms
end

/-- The call `res.json(v)` of a handler: the body sent, or the message of the
error thrown by `JSON.stringify` before anything is sent. -/
def resJson (e : Engine) (v : JSON) : Except JSString JSON :=
  match e.stringifyError v with
  | some message => .error message
  | none => .ok (stringified e v)

/-- An engine for the concrete inputs below, which hold no number that changes
when printed and are far from any stack limit: numbers are printed as written
and `JSON.stringify` returns. -/
def Engine.plain : Engine := ⟨fun token => some token, fun _ => none⟩

/-! ## The HTTP handlers (server.js, lines 112-160) -/

/-- What a handler sends: the status code and the JSON body. -/
structure Response where
  status : Nat
  body : JSON

/-- A run of a handler: the response sent and the prompts sent to the
completion API during the run. -/
structure Outcome where
  response : Response
  apiCalls : List JSString

/-- The body `{ error: message }`. -/
def errorBody (message : JSString) : JSON := .obj [(lit "error", .str message)]

/-- The expression `a || b` on strings: `a` when it is non-empty. -/
def orElse (a b : JSString) : JSString := if a = [] then b else a

/-- Body of a `POST /generate` request after `express.json()`: the field `text`
is absent (`none`) or a string. -/
structure GenerateRequest where
  text : Option JSString

/-- Source: the `try` block of `app.post('/generate', async (req, res) => ...)`
(server.js, lines 114-130): the response it sends, or the message of the error
thrown in it, together with the prompts sent to the completion API. An absent
or empty `text` is falsy. The `await` rethrows the error of
`generateStudyGuide`; `res.json(v)` sends with the default status 200 or
throws. -/
def postGenerateTry (engine : Engine) (api : JSString → ApiResult) (req : GenerateRequest) :
    Except JSString Response × List JSString :=
  match req.text with
  | none =>
    (.ok ⟨400, errorBody (lit "No text provided. Please paste text or upload a PDF.")⟩, [])
  | some text =>
    if text = [] then
      (.ok ⟨400, errorBody (lit "No text provided. Please paste text or upload a PDF.")⟩, [])
    else if trim text = [] then
      (.ok ⟨400, errorBody (lit "Text cannot be empty.")⟩, [])
    else
      match generateStudyGuide api text with
      | (.error message, calls) => (.error message, calls)
      | (.ok studyGuide, calls) =>
        match resJson engine studyGuide with
        | .ok body => (.ok ⟨200, body⟩, calls)
        | .error message => (.error message, calls)

/-- Source: `app.post('/generate', async (req, res) => ...)`: the `try` block
and the `catch` block, which answers 500 with the message of the error (or
the default message when it is empty). -/
def postGenerate (engine : Engine) (api : JSString → ApiResult) (req : GenerateRequest) :
    Outcome :=
  match postGenerateTry engine api req with
  | (.ok response, calls) => ⟨response, calls⟩
  | (.error message, calls) =>
    ⟨⟨500, errorBody (orElse message (lit "Failed to generate study guide"))⟩, calls⟩

/-- The file stored by multer in `req.file`. -/
structure UploadedFile where
  mimetype : JSString
  buffer : List Nat

/-- Outcome of `pdfParse(buffer)`: it throws an error with a message, or it
returns data whose field `text` is the extracted text. -/
inductive PdfResult where
  | failure (message : JSString)
  | data (text : JSString)

/-- A `POST /upload` request as the handler sees it: `req.file` is set by
`upload.single('pdf')` or is undefined. -/
structure UploadRequest where
  file : Option UploadedFile

/-- Source: the `try` block of the handler of `POST /upload` (server.js, lines
140-155): the response it sends, or the message of the error thrown in it,
together with the prompts sent to the completion API. -/
def postUploadTry (engine : Engine) (api : JSString → ApiResult)
    (pdfParse : List Nat → PdfResult) (req : UploadRequest) :
    Except JSString Response × List JSString :=
  match req.file with
  | none => (.ok ⟨400, errorBody (lit "No PDF file uploaded")⟩, [])
  | some file =>
    match pdfParse file.buffer with
    | .failure message => (.error message, [])
    | .data lectureText =>
      if trim lectureText = [] then
        (.ok ⟨400, errorBody (lit "PDF appears to be empty or could not extract text")⟩, [])
      else
        match generateStudyGuide api lectureText with
        | (.error message, calls) => (.error message, calls)
        | (.ok studyGuide, calls) =>
          match resJson engine studyGuide with
          | .ok body => (.ok ⟨200, body⟩, calls)
          | .error message => (.error message, calls)

/-- Source: `app.post('/upload', upload.single('pdf'), async (req, res) => ...)`,
the handler that runs after the multer middleware: the `try` block and the
`catch` block. -/
def postUpload (engine : Engine) (api : JSString → ApiResult)
    (pdfParse : List Nat → PdfResult) (req : UploadRequest) : Outcome :=
  match postUploadTry engine api pdfParse req with
  | (.ok response, calls) => ⟨response, calls⟩
  | (.error message, calls) =>
    ⟨⟨500, errorBody (orElse message (lit "Failed to process PDF"))⟩, calls⟩

/-- Source: the `fileFilter` option of multer (server.js, lines 26-32). The
result is the pair of arguments passed to the callback `cb`: the error (`none`
for `null`, otherwise the message of the `Error`) and the acceptance flag. -/
def fileFilter (file : UploadedFile) : Option JSString × Bool :=
  if file.mimetype = lit "application/pdf" then (none, true)
  else (some (lit "Only PDF files are allowed"), false)

/-! ## The browser form (App.js, lines 7-81) -/

/-- A file chosen in the file input: its name and its MIME type. -/
structure File where
  name : JSString
  type : JSString

/-- The five `useState` cells of the component `App`. -/
structure AppState where
  inputText : JSString
  selectedFile : Option File
  loading : Bool
  studyGuide : Option JSON
  error : Option JSString

/-- The state of the first render. -/
def AppState.initial : AppState := ⟨[], none, false, none, none⟩

/-- Body of a request sent with `axios.post`. -/
inductive RequestBody where
  | multipart (fields : List (JSString × File))
  | json (value : JSON)

/-- A POST issued by the form: the path after `API_BASE_URL` and the body. -/
structure HttpRequest where
  path : JSString
  body : RequestBody

/-- The error a rejected `axios.post` carries: `err.response?.data?.error`
(when present) and `err.message`. -/
structure HttpError where
  responseError : Option JSString
  message : JSString

/-- Outcome of `axios.post`: it resolves with `response.data` or it rejects. -/
inductive HttpResult where
  | resolved (data : JSON)
  | rejected (err : HttpError)

/-- Source: `handleFileChange`, applied to `e.target.files[0]`. -/
def handleFileChange (file : Option File) (st : AppState) : AppState :=
  match file with
  | some f =>
    if f.type = lit "application/pdf" then
      { st with selectedFile := some f, inputText := [], error := none }
    else
      { st with error := some (lit "Please select a PDF file"), selectedFile := none }
  | none =>
    { st with error := some (lit "Please select a PDF file"), selectedFile := none }

/-- Source: `handleTextChange`, applied to `e.target.value`. -/
def handleTextChange (value : JSString) (st : AppState) : AppState :=
  { st with inputText := value, selectedFile := none, error := none }

/-- Source: `handleReset`. -/
def handleReset (st : AppState) : AppState :=
  { st with inputText := [], selectedFile := none, studyGuide := none, error := none }

/-- Source: `handleGenerate` up to its `await` (App.js, lines 32-59): the state
updates made before the request and the requests issued. -/
def handleGenerateStart (st : AppState) : AppState × List HttpRequest :=
  if (trim st.inputText).isEmpty && st.selectedFile.isNone then
    ({ st with error := some (lit "Please paste text or upload a PDF file") }, [])
  else
    let st1 := { st with loading := true, error := none, studyGuide := none }
    match st.selectedFile with
    | some f => (st1, [⟨lit "/upload", .multipart [(lit "pdf", f)]⟩])
    | none =>
      (st1, [⟨lit "/generate", .json (.obj [(lit "text", .str st.inputText)])⟩])

/-- Source: `handleGenerate` after its `await` (App.js, lines 61-70): the state
updates of the `try`, `catch` and `finally` blocks, applied to the state
current when the request settles. -/
def handleGenerateSettle (result : HttpResult) (st : AppState) : AppState :=
  match result with
  | .resolved data => { st with studyGuide := some data, loading := false }
  | .rejected err =>
    { st with
      error := some (orElse (err.responseError.getD [])
        (orElse err.message (lit "Failed to generate study guide. Please try again.")))
      loading := false }

/-- Source: `handleGenerate` run to completion, the HTTP client being the
parameter `http`: the final state and the requests issued. -/
def handleGenerate (http : HttpRequest → HttpResult) (st : AppState) :
    AppState × List HttpRequest :=
  match handleGenerateStart st with
  | (st1, []) => (st1, [])
  | (st1, req :: reqs) => (handleGenerateSettle (http req) st1, req :: reqs)

/-- The events of the form. A generation is either one event (`handleGenerate`
run to completion) or two events, its start and the settling of its request,
so that other events may occur in between. -/
inductive Event where
  | fileChange (file : Option File)
  | textChange (value : JSString)
  | generate (http : HttpRequest → HttpResult)
  | generateStart
  | generateSettle (result : HttpResult)
  | reset

/-- The state after an event. -/
def step (st : AppState) : Event → AppState
  | .fileChange file => handleFileChange file st
  | .textChange value => handleTextChange value st
  | .generate http => (handleGenerate http st).1
  | .generateStart => (handleGenerateStart st).1
  | .generateSettle result => handleGenerateSettle result st
  | .reset => handleReset st

/-- The state after a sequence of events, from the initial state. -/
def run (events : List Event) : AppState := events.foldl step AppState.initial

/-- The form holds pasted text or a PDF file, not both, and a held file is a
PDF. -/
def FormInvariant (st : AppState) : Prop :=
  ¬ (st.inputText ≠ [] ∧ st.selectedFile ≠ none)
    ∧ ∀ f, st.selectedFile = some f → f.type = lit "application/pdf"

/-! ## Properties of `truncateText` -/

/-- The marker has fifteen code units. -/
theorem truncatedMarker_length : truncatedMarker.length = 15 := by decide

/-- C7: `truncateText` leaves a text of length at most `maxLength` unchanged and
otherwise returns its first `maxLength` code units followed by the marker
`'... [truncated]'`; in both cases the first `min text.length maxLength` code
units of the input are a prefix of the result, and an omitted `maxLength`
behaves as `10000`. -/
theorem truncateText_spec (text : JSString) (maxLength : Nat) :
    truncateText text (some maxLength)
        = (if text.length ≤ maxLength then text
           else text.take maxLength ++ lit "... [truncated]")
      ∧ text.take (min text.length maxLength) <+: truncateText text (some maxLength)
      ∧ truncateText text none = truncateText text (some 10000) := by
  refine ⟨rfl, ?_, rfl⟩
  unfold truncateText
  by_cases h : text.length ≤ maxLength
  · simp [h, List.take_of_length_le]
  · have h' : maxLength ≤ text.length := by omega
    simp [h, h']

/-- C10: `truncateText` is idempotent for every `maxLength`, and its result is
never longer than `maxLength + 15` code units (a truncated result has exactly
that length, which exceeds `maxLength`). -/
theorem truncateText_idempotent (text : JSString) (maxLength : Nat) :
    truncateText (truncateText text (some maxLength)) (some maxLength)
        = truncateText text (some maxLength)
      ∧ (truncateText text (some maxLength)).length ≤ maxLength + 15
      ∧ (truncateText text (some maxLength)).length
          = (if text.length ≤ maxLength then text.length else maxLength + 15) := by
  unfold truncateText
  by_cases h : text.length ≤ maxLength
  · simp [h]; omega
  · have h' : maxLength ≤ text.length := by omega
    have hm := truncatedMarker_length
    simp [h, h', hm, List.take_append_of_le_length]

/-! ## Properties of `trim` -/

/-- The result of `trim` is empty exactly for a blank text. -/
theorem trim_eq_nil_iff (s : JSString) : trim s = [] ↔ isBlank s = true := by
  unfold trim isBlank
  rw [List.reverse_eq_nil_iff, List.dropWhile_eq_nil_iff, List.all_eq_true]
  constructor
  · intro h
    have hd : s.dropWhile isWhiteSpace = [] := by
      cases hq : s.dropWhile isWhiteSpace with
      | nil => rfl
      | cons a l =>
        have h1 : isWhiteSpace a = true := h a (by simp [hq])
        have h2 := List.head_dropWhile_not isWhiteSpace s (by simp [hq])
        simp [hq, h1] at h2
    exact List.dropWhile_eq_nil_iff.mp hd
  · intro h x hx
    have hd : s.dropWhile isWhiteSpace = [] := List.dropWhile_eq_nil_iff.mpr h
    simp [hd] at hx

/-- The empty text is blank. -/
theorem isBlank_nil : isBlank [] = true := rfl

/-! ## Properties of `generateStudyGuide` -/

/-- The prompt built by `generateStudyGuide` for a text. -/
theorem generateStudyGuide_apiCalls (api : JSString → ApiResult) (text : JSString) :
    (generateStudyGuide api text).2
      = [promptHead ++ truncateText text none ++ promptTail] := by
  unfold generateStudyGuide
  simp only []
  split
  · rfl
  · rfl
  · split <;> rfl

/-- The result of `generateStudyGuide`, by the outcome of the API call. -/
theorem generateStudyGuide_result (api : JSString → ApiResult) (text : JSString) :
    (generateStudyGuide api text).1
      = (match api (promptHead ++ truncateText text none ++ promptTail) with
          | .failure => .error generateErrorMessage
          | .message none => .error generateErrorMessage
          | .message (some content) =>
            match JSONparse (stripFences (trim content)) with
            | some v => .ok v
            | none => .error generateErrorMessage) := by
  unfold generateStudyGuide
  simp only []
  split
  · rfl
  · rfl
  · split <;> rfl

/-- The fixed error message is not empty. -/
theorem generateErrorMessage_ne_nil : generateErrorMessage ≠ [] := by decide

/-! ## Properties of `res.json` -/

/-- Serialising the values of the members keeps their keys. -/
theorem stringifiedMembers_keys (e : Engine) (ms : List (JSString × JSON)) :
    (stringifiedMembers e ms).map Prod.fst = ms.map Prod.fst := by
  induction ms with
  | nil => rfl
  | cons m ms ih =>
    obtain ⟨k, v⟩ := m
    rw [stringifiedMembers]
    simp only [List.map_cons, ih]

/-- The keys after defining a property: the keys before, and the key defined. -/
theorem setProperty_keys (props : List (JSString × JSON)) (m : JSString × JSON)
    (k : JSString) :
    k ∈ (setProperty props m).map Prod.fst ↔ k ∈ props.map Prod.fst ∨ k = m.1 := by
  unfold setProperty
  split
  · rename_i h
    have hm : m.1 ∈ props.map Prod.fst := by
      rw [List.any_eq_true] at h
      obtain ⟨p, hp, hpe⟩ := h
      have : p.1 = m.1 := by simpa using hpe
      rw [← this]
      exact List.mem_map_of_mem _ hp
    have hk : (props.map (fun p => if p.1 = m.1 then (p.1, m.2) else p)).map Prod.fst
        = props.map Prod.fst := by
      rw [List.map_map]
      apply List.map_congr_left
      intro p _
      simp only [Function.comp]
      split <;> rfl
    rw [hk]
    constructor
    · intro hx; exact Or.inl hx
    · intro hx
      rcases hx with hx | hx
      · exact hx
      · rw [hx]; exact hm
  · simp

/-- The keys after defining a list of properties. -/
theorem foldl_setProperty_keys (ms acc : List (JSString × JSON)) (k : JSString) :
    k ∈ (ms.foldl setProperty acc).map Prod.fst
      ↔ k ∈ acc.map Prod.fst ∨ k ∈ ms.map Prod.fst := by
  induction ms generalizing acc with
  | nil => simp
  | cons m ms ih =>
    rw [List.foldl_cons, ih, setProperty_keys]
    simp only [List.map_cons, List.mem_cons]
    tauto

/-- The object built from the members has exactly their keys. -/
theorem ownProperties_keys (ms : List (JSString × JSON)) (k : JSString) :
    k ∈ (ownProperties ms).map Prod.fst ↔ k ∈ ms.map Prod.fst := by
  unfold ownProperties
  rw [foldl_setProperty_keys]
  simp

/-- The enumeration order lists exactly the keys of the object. -/
theorem enumerationOrder_keys (props : List (JSString × JSON)) (k : JSString) :
    k ∈ (enumerationOrder props).map Prod.fst ↔ k ∈ props.map Prod.fst := by
  unfold enumerationOrder
  simp only [List.map_append, List.mem_append, List.mem_map]
  constructor
  · intro h
    rcases h with ⟨p, hp, rfl⟩ | ⟨p, hp, rfl⟩
    · have := (List.perm_insertionSort _ _).mem_iff.mp hp
      exact ⟨p, (List.mem_filter.mp this).1, rfl⟩
    · exact ⟨p, (List.mem_filter.mp hp).1, rfl⟩
  · intro h
    obtain ⟨p, hp, rfl⟩ := h
    cases hi : (arrayIndex p.1).isSome with
    | true =>
      left
      refine ⟨p, (List.perm_insertionSort _ _).mem_iff.mpr (List.mem_filter.mpr ⟨hp, hi⟩), rfl⟩
    | false =>
      right
      refine ⟨p, List.mem_filter.mpr ⟨hp, ?_⟩, rfl⟩
      cases h2 : arrayIndex p.1 with
      | none => rfl
      | some n => rw [h2] at hi; cases hi

/-- An object has a field exactly when the key is among its keys. -/
theorem hasField_obj (key : JSString) (ms : List (JSString × JSON)) :
    (JSON.obj ms).hasField key = true ↔ key ∈ ms.map Prod.fst := by
  unfold JSON.hasField
  simp only [List.any_eq_true, List.mem_map]
  constructor
  · rintro ⟨m, hm, he⟩
    exact ⟨m, hm, by simpa using he⟩
  · rintro ⟨m, hm, he⟩
    exact ⟨m, hm, by simpa using he⟩

/-- Serialisation keeps the fields of a value. -/
theorem stringified_hasField (e : Engine) (key : JSString) (v : JSON) :
    (stringified e v).hasField key = v.hasField key := by
  cases v with
  | null => rfl
  | bool b => rfl
  | num token =>
    rw [stringified]
    cases e.printNumber token <;> rfl
  | str s => rfl
  | arr items => rfl
  | obj members =>
    rw [stringified]
    rw [Bool.eq_iff_iff, hasField_obj, hasField_obj, enumerationOrder_keys, ownProperties_keys,
      stringifiedMembers_keys]

/-- Serialisation keeps the shape of a study guide. -/
theorem stringified_shape (e : Engine) (v : JSON) :
    isStudyGuideShape (stringified e v) = isStudyGuideShape v := by
  unfold isStudyGuideShape
  simp only [stringified_hasField]

/-- The body sent by `res.json`, when it sends one. -/
theorem resJson_ok (e : Engine) (v body : JSON) (h : resJson e v = .ok body) :
    body = stringified e v := by
  unfold resJson at h
  split at h
  · cases h
  · injection h with h; exact h.symm

/-- A number whose double is not finite is sent as `null`: for an engine that
reads `1e400` as infinity, the content `[1e400]` is sent as `[null]`. -/
theorem resJson_nonfinite_number :
    (JSONparse (lit "[1e400]")).map
        (resJson ⟨fun token => if token = lit "1e400" then none else some token, fun _ => none⟩)
      = some (.ok (.arr [.null])) := by
  rfl

/-- Duplicate keys are merged and array indices come first: the content
`{"b":1,"10":2,"2":3,"b":4}` is sent as `{"2":3,"10":2,"b":4}`. -/
theorem resJson_object_keys :
    (JSONparse (lit "\x7b\"b\":1,\"10\":2,\"2\":3,\"b\":4\x7d")).map (resJson Engine.plain)
      = some (.ok (.obj [(lit "2", .num (lit "3")), (lit "10", .num (lit "2")),
          (lit "b", .num (lit "4"))])) := by
  rfl

/-! ## The two handlers, path by path -/

/-- After the validation of the text, the `try` block of `POST /generate` sends
200 or throws. -/
theorem postGenerateTry_nonblank (engine : Engine) (api : JSString → ApiResult)
    (text : JSString) (h : isBlank text = false) :
    postGenerateTry engine api ⟨some text⟩
      = (match (generateStudyGuide api text).1 with
          | .error m => (.error m, (generateStudyGuide api text).2)
          | .ok v =>
            match resJson engine v with
            | .ok body => (.ok ⟨200, body⟩, (generateStudyGuide api text).2)
            | .error m => (.error m, (generateStudyGuide api text).2)) := by
  have h1 : text ≠ [] := by
    intro e; rw [e, isBlank_nil] at h; exact absurd h (by decide)
  have h2 : trim text ≠ [] := by
    intro e; rw [trim_eq_nil_iff, h] at e; exact absurd e (by decide)
  unfold postGenerateTry
  simp only [h1, h2, if_false]
  rcases hg : generateStudyGuide api text with ⟨r, calls⟩
  cases r <;> rfl

/-- After the validation of the text, `POST /generate` answers 200 or 500. -/
theorem postGenerate_nonblank (engine : Engine) (api : JSString → ApiResult)
    (text : JSString) (h : isBlank text = false) :
    postGenerate engine api ⟨some text⟩
      = (match (generateStudyGuide api text).1 with
          | .error m =>
            ⟨⟨500, errorBody (orElse m (lit "Failed to generate study guide"))⟩,
              (generateStudyGuide api text).2⟩
          | .ok v =>
            match resJson engine v with
            | .ok body => ⟨⟨200, body⟩, (generateStudyGuide api text).2⟩
            | .error m =>
              ⟨⟨500, errorBody (orElse m (lit "Failed to generate study guide"))⟩,
                (generateStudyGuide api text).2⟩) := by
  unfold postGenerate
  rw [postGenerateTry_nonblank engine api text h]
  cases (generateStudyGuide api text).1 with
  | error m => rfl
  | ok v => simp only []; cases resJson engine v <;> rfl

/-- A blank text is answered 400 by `POST /generate`, without a call. -/
theorem postGenerate_blank (engine : Engine) (api : JSString → ApiResult) (text : JSString)
    (h : isBlank text = true) :
    postGenerate engine api ⟨some text⟩
      = ⟨⟨400, errorBody (if text = [] then
            lit "No text provided. Please paste text or upload a PDF."
          else lit "Text cannot be empty.")⟩, []⟩ := by
  have ht : trim text = [] := (trim_eq_nil_iff text).mpr h
  have e : postGenerateTry engine api ⟨some text⟩
      = (.ok ⟨400, errorBody (if text = [] then
            lit "No text provided. Please paste text or upload a PDF."
          else lit "Text cannot be empty.")⟩, []) := by
    show (if text = [] then _ else if trim text = [] then _ else _) = _
    by_cases h1 : text = []
    · rw [if_pos h1, if_pos h1]
    · rw [if_neg h1, if_pos ht, if_neg h1]
  unfold postGenerate
  rw [e]

/-- When `JSON.stringify` throws on the parsed value, `POST /generate` answers
500. -/
theorem postGenerate_stringify_throws (engine : Engine) (api : JSString → ApiResult)
    (text : JSString) (v : JSON) (message : JSString) (hb : isBlank text = false)
    (hv : (generateStudyGuide api text).1 = .ok v)
    (he : engine.stringifyError v = some message) :
    (postGenerate engine api ⟨some text⟩).response.status = 500 := by
  rw [postGenerate_nonblank engine api text hb, hv]
  have hr : resJson engine v = .error message := by
    unfold resJson; rw [he]
  simp only [hr]

/-! ## Responses of `POST /generate` after validation -/

/-- C2 fails as stated: for the text `a` and the model content `{}` the handler
answers 200 with the empty object, which has none of the four fields. -/
theorem postGenerate_shape_counterexample :
    isBlank [97] = false
      ∧ (postGenerate Engine.plain (fun _ => .message (some (lit "\x7b\x7d")))
          ⟨some [97]⟩).response.status = 200
      ∧ isStudyGuideShape
          (postGenerate Engine.plain (fun _ => .message (some (lit "\x7b\x7d")))
            ⟨some [97]⟩).response.body = false := by
  refine ⟨by decide, ?_, ?_⟩ <;> rfl

/-- C2, amended: whenever `POST /generate` answers 200 for a text, the text is
not blank, the API returned a message content, that content (trimmed, fences
stripped) is valid JSON, and the response body is what `res.json` sends for the
value it parses to, that is the value as `JSON.stringify` writes it (numbers
reprinted from their doubles, the non-finite ones as `null`; each key of an
object once). The handler checks nothing about its shape: the body is an object
with the four fields exactly when the parsed value is one. -/
theorem postGenerate_200_body (engine : Engine) (api : JSString → ApiResult)
    (text : JSString)
    (h : (postGenerate engine api ⟨some text⟩).response.status = 200) :
    isBlank text = false
      ∧ ∃ content v, api (promptFor text) = .message (some content)
          ∧ JSONparse (stripFences (trim content)) = some v
          ∧ resJson engine v = .ok (postGenerate engine api ⟨some text⟩).response.body
          ∧ (postGenerate engine api ⟨some text⟩).response.body = stringified engine v
          ∧ (isStudyGuideShape (postGenerate engine api ⟨some text⟩).response.body
              = isStudyGuideShape v) := by
  cases hb : isBlank text with
  | true =>
    rw [postGenerate_blank engine api text hb] at h
    have h4 : (400 : Nat) = 200 := h
    exact absurd h4 (by decide)
  | false =>
    refine ⟨rfl, ?_⟩
    rw [postGenerate_nonblank engine api text hb] at h ⊢
    have hr := generateStudyGuide_result api text
    rcases hg : (generateStudyGuide api text).1 with m | v
    · rw [hg] at h
      have h5 : (500 : Nat) = 200 := h
      exact absurd h5 (by decide)
    · rw [hg] at hr h
      simp only [] at h ⊢
      rcases hj : resJson engine v with m | body
      · rw [hj] at h
        have h5 : (500 : Nat) = 200 := h
        exact absurd h5 (by decide)
      · simp only []
        show ∃ content w, api (promptFor text) = .message (some content)
          ∧ JSONparse (stripFences (trim content)) = some w
          ∧ resJson engine w = .ok body ∧ body = stringified engine w
          ∧ isStudyGuideShape body = isStudyGuideShape w
        have hbody : body = stringified engine v := resJson_ok engine v body hj
        unfold promptFor
        rcases ha : api (promptHead ++ truncateText text none ++ promptTail) with _ | c
        · rw [ha] at hr; cases hr
        · rw [ha] at hr
          cases c with
          | none => cases hr
          | some content =>
            simp only [] at hr
            rcases hp : JSONparse (stripFences (trim content)) with _ | w
            · rw [hp] at hr; cases hr
            · rw [hp] at hr
              injection hr with hr
              subst hr
              exact ⟨content, v, rfl, hp, hj, hbody, by rw [hbody, stringified_shape]⟩

/-- C2 amended, at a concrete input: the content `{}` for the text `a`. -/
theorem postGenerate_200_body_witness :
    isBlank [97] = false
      ∧ ∃ content v, (fun _ => ApiResult.message (some (lit "\x7b\x7d"))) (promptFor [97])
            = .message (some content)
          ∧ JSONparse (stripFences (trim content)) = some v
          ∧ resJson Engine.plain v
            = .ok (postGenerate Engine.plain (fun _ => .message (some (lit "\x7b\x7d")))
                ⟨some [97]⟩).response.body
          ∧ (postGenerate Engine.plain (fun _ => .message (some (lit "\x7b\x7d")))
              ⟨some [97]⟩).response.body = stringified Engine.plain v
          ∧ (isStudyGuideShape
              (postGenerate Engine.plain (fun _ => .message (some (lit "\x7b\x7d")))
                ⟨some [97]⟩).response.body
              = isStudyGuideShape v) :=
  postGenerate_200_body Engine.plain (fun _ => .message (some (lit "\x7b\x7d"))) [97] rfl

/-- A `null` message content makes `generateStudyGuide` fail with the fixed
message as well: its `.trim()` throws inside the `try` block. -/
theorem generateStudyGuide_null_content (api : JSString → ApiResult) (text : JSString)
    (h : api (promptFor text) = .message none) :
    (generateStudyGuide api text).1 = .error generateErrorMessage := by
  rw [generateStudyGuide_result]
  unfold promptFor at h
  rw [h]

/-- The calls of a run of `POST /generate`: none for a blank text, one with the
prompt of the text otherwise. -/
theorem postGenerate_apiCalls (engine : Engine) (api : JSString → ApiResult)
    (text : JSString) :
    (postGenerate engine api ⟨some text⟩).apiCalls
      = (if isBlank text = true then [] else [promptFor text]) := by
  cases hb : isBlank text with
  | true => rw [postGenerate_blank engine api text hb]; rfl
  | false =>
    rw [postGenerate_nonblank engine api text hb]
    have hc : (generateStudyGuide api text).2 = [promptFor text] :=
      generateStudyGuide_apiCalls api text
    cases (generateStudyGuide api text).1 with
    | error m => exact hc
    | ok v => simp only []; cases resJson engine v <;> exact hc

/-- C3: for every non-empty text, if the completion API call of the run throws,
or returns a message content that is not valid JSON after trimming and fence
stripping, then `generateStudyGuide` fails with exactly the fixed message, the
error is thrown inside the `try` block of the handler and caught by its `catch`
block, and `POST /generate` answers 500 with the body `{ error: <that message> }`. -/
theorem postGenerate_failure (engine : Engine) (api : JSString → ApiResult)
    (text : JSString) (hne : text ≠ [])
    (h : ∃ prompt ∈ (postGenerate engine api ⟨some text⟩).apiCalls,
      api prompt = .failure
        ∨ ∃ content, api prompt = .message (some content)
            ∧ JSONparse (stripFences (trim content)) = none) :
    (generateStudyGuide api text).1 = .error generateErrorMessage
      ∧ generateErrorMessage
          = lit "Failed to generate study guide. Please check your API key and try again."
      ∧ (postGenerateTry engine api ⟨some text⟩).1 = .error generateErrorMessage
      ∧ (postGenerate engine api ⟨some text⟩).response.status = 500
      ∧ (postGenerate engine api ⟨some text⟩).response.body
          = errorBody generateErrorMessage := by
  have _ := hne
  obtain ⟨prompt, hmem, hcase⟩ := h
  rw [postGenerate_apiCalls] at hmem
  cases hb : isBlank text with
  | true => rw [hb] at hmem; simp at hmem
  | false =>
    rw [hb] at hmem
    have hp : prompt = promptFor text := by simpa using hmem
    rw [hp] at hcase
    have hr : (generateStudyGuide api text).1 = .error generateErrorMessage := by
      rw [generateStudyGuide_result]
      unfold promptFor at hcase
      rcases hcase with hc | ⟨content, hc, hparse⟩
      · rw [hc]
      · rw [hc]; simp only []; rw [hparse]
    refine ⟨hr, rfl, ?_, ?_⟩
    · rw [postGenerateTry_nonblank engine api text hb, hr]
    · rw [postGenerate_nonblank engine api text hb, hr]
      refine ⟨rfl, ?_⟩
      have ho : orElse generateErrorMessage (lit "Failed to generate study guide")
          = generateErrorMessage := by decide
      show errorBody (orElse generateErrorMessage (lit "Failed to generate study guide")) = _
      rw [ho]

/-- C3, at concrete inputs: for the text `a`, an API that returns the content
`oops` and an API that throws. -/
theorem postGenerate_failure_witness :
    ((generateStudyGuide (fun _ => .message (some (lit "oops"))) [97]).1
        = .error generateErrorMessage
      ∧ (postGenerate Engine.plain (fun _ => .message (some (lit "oops")))
          ⟨some [97]⟩).response.status = 500)
      ∧ (postGenerate Engine.plain (fun _ => .failure) ⟨some [97]⟩).response.body
          = errorBody generateErrorMessage :=
  have h := postGenerate_failure Engine.plain (fun _ => .message (some (lit "oops"))) [97]
    (by decide) ⟨promptFor [97], List.mem_singleton.mpr rfl, Or.inr ⟨lit "oops", rfl, rfl⟩⟩
  have h2 := postGenerate_failure Engine.plain (fun _ => .failure) [97]
    (by decide) ⟨promptFor [97], List.mem_singleton.mpr rfl, Or.inl rfl⟩
  ⟨⟨h.1, h.2.2.2.1⟩, h2.2.2.2.2⟩

/-! ## The parser never exhausts its budget -/

/-- Skipping white space does not lengthen the input. -/
theorem skipWs_length_le (s : JSString) : (skipWs s).length ≤ s.length :=
  (List.dropWhile_suffix isJsonWs).length_le

/-- What follows the first code unit after white space is shorter than the input. -/
theorem skipWs_cons_length {s rest : JSString} {c : Nat} (h : skipWs s = c :: rest) :
    rest.length < s.length := by
  have := skipWs_length_le s
  rw [h] at this
  simp only [List.length_cons] at this
  omega

/-- The second part of `span` is no longer than the list. -/
theorem span_snd_length_le (p : Nat → Bool) (l : JSString) :
    (l.span p).2.length ≤ l.length := by
  rw [List.span_eq_take_drop]
  exact (List.dropWhile_suffix p).length_le

/-- A successful `consTo` comes from a successful rest, with the same remaining input. -/
theorem consTo_some {u : Nat} {o : Option (JSString × JSString)} {r : JSString × JSString}
    (h : consTo u o = some r) : ∃ q, o = some q ∧ r.2 = q.2 := by
  cases o with
  | none => cases h
  | some q => injection h with h; subst h; exact ⟨q, rfl, rfl⟩

/-- A string body consumes at least its closing quote (by induction on a bound of the length). -/
theorem parseStringBody_length_aux :
    ∀ (n : Nat) (s : JSString) (r : JSString × JSString), s.length ≤ n →
      parseStringBody s = some r → r.2.length < s.length := by
  intro n
  induction n with
  | zero =>
    intro s r hn h
    cases s with
    | nil => simp [parseStringBody] at h
    | cons c rest => simp at hn
  | succ n ih =>
    intro s r hn h
    cases s with
    | nil => simp [parseStringBody] at h
    | cons c rest =>
      rw [parseStringBody.eq_def] at h
      simp only at h
      simp only [List.length_cons] at hn ⊢
      split at h
      · injection h with h; subst h; simp
      · split at h
        · split at h
          · cases h
          · rename_i e rest2
            simp only [List.length_cons] at hn ⊢
            split at h
            · split at h
              · rename_i a b c2 d rest3
                simp only [List.length_cons] at hn ⊢
                split at h
                · obtain ⟨q, hq, hr⟩ := consTo_some h
                  have := ih rest3 q (by omega) hq
                  rw [hr]; omega
                · cases h
              · cases h
            · split at h
              · obtain ⟨q, hq, hr⟩ := consTo_some h
                have := ih rest2 q (by omega) hq
                rw [hr]; omega
              · cases h
        · split at h
          · cases h
          · obtain ⟨q, hq, hr⟩ := consTo_some h
            have := ih rest q (by omega) hq
            rw [hr]; omega

/-- A string body consumes at least its closing quote. -/
theorem parseStringBody_length {s : JSString} {r : JSString × JSString}
    (h : parseStringBody s = some r) : r.2.length < s.length :=
  parseStringBody_length_aux s.length s r (Nat.le_refl _) h

/-- The input after the sign is no longer than the input. -/
theorem lexSign_length (s : JSString) : (lexSign s).2.length ≤ s.length := by
  unfold lexSign
  split
  · simp
  · split <;> simp

/-- The input after the integer part is no longer than the input. -/
theorem lexInt_length {s : JSString} {r : JSString × JSString} (h : lexInt s = some r) :
    r.2.length ≤ s.length := by
  unfold lexInt at h
  split at h
  · cases h
  · rename_i c t
    split at h
    · injection h with h; subst h; simp
    · split at h
      · injection h with h; subst h
        have := span_snd_length_le isDigit t
        simp only [List.length_cons]; omega
      · cases h

/-- The input after the fraction is no longer than the input. -/
theorem lexFrac_length {s : JSString} {r : JSString × JSString} (h : lexFrac s = some r) :
    r.2.length ≤ s.length := by
  unfold lexFrac at h
  split at h
  · injection h with h; subst h; simp
  · rename_i c t
    split at h
    · split at h
      · cases h
      · injection h with h; subst h
        have := span_snd_length_le isDigit t
        simp only [List.length_cons]; omega
    · injection h with h; subst h; simp

/-- The input after the sign of the exponent is no longer than the input. -/
theorem lexExpSign_length (s : JSString) : (lexExpSign s).2.length ≤ s.length := by
  unfold lexExpSign
  split
  · simp
  · split <;> simp

/-- The input after the exponent is no longer than the input. -/
theorem lexExp_length {s : JSString} {r : JSString × JSString} (h : lexExp s = some r) :
    r.2.length ≤ s.length := by
  unfold lexExp at h
  split at h
  · injection h with h; subst h; simp
  · rename_i c t
    split at h
    · split at h
      · cases h
      · injection h with h; subst h
        have h1 := lexExpSign_length t
        have h2 := span_snd_length_le isDigit (lexExpSign t).2
        simp only [List.length_cons]; omega
    · injection h with h; subst h; simp

/-- The input after a number is no longer than the input. -/
theorem parseNumber_length {s : JSString} {r : JSString × JSString}
    (h : parseNumber s = some r) : r.2.length ≤ s.length := by
  unfold parseNumber at h
  split at h
  · cases h
  · rename_i i hi
    split at h
    · cases h
    · rename_i f hf
      split at h
      · cases h
      · rename_i e he
        injection h with h; subst h
        have h1 := lexSign_length s
        have h2 := lexInt_length hi
        have h3 := lexFrac_length hf
        have h4 := lexExp_length he
        simp only; omega

/-- The three parsers return a remaining input no longer than their input. -/
theorem parse_rest_le : ∀ f : Nat,
    (∀ s v r, parseValue f s = .ok v r → r.length ≤ s.length)
    ∧ (∀ s vs r, parseElements f s = .ok vs r → r.length ≤ s.length)
    ∧ (∀ s ms r, parseMembers f s = .ok ms r → r.length ≤ s.length) := by
  intro f
  induction f with
  | zero =>
    refine ⟨?_, ?_, ?_⟩
    · intro s v r h; rw [parseValue] at h; cases h
    · intro s v r h; rw [parseElements] at h; cases h
    · intro s v r h; rw [parseMembers] at h; cases h
  | succ f ih =>
    obtain ⟨ihV, ihE, ihM⟩ := ih
    refine ⟨?_, ?_, ?_⟩
    · intro s v r h
      rw [parseValue] at h
      split at h
      · cases h
      · rename_i c rest hs
        have hs' := skipWs_cons_length hs
        split at h
        · split at h
          · cases h
          · rename_i d rest2 hs2
            have hs2' := skipWs_cons_length hs2
            split at h
            · injection h with h1 h2; subst h2; omega
            · split at h
              · rename_i ms r2 hm
                injection h with h1 h2; subst h2
                have := ihM _ _ _ hm
                simp only [List.length_cons] at this; omega
              · cases h
              · cases h
        · split at h
          · split at h
            · cases h
            · rename_i d rest2 hs2
              have hs2' := skipWs_cons_length hs2
              split at h
              · injection h with h1 h2; subst h2; omega
              · split at h
                · rename_i ms r2 hm
                  injection h with h1 h2; subst h2
                  have := ihE _ _ _ hm
                  simp only [List.length_cons] at this; omega
                · cases h
                · cases h
          · split at h
            · split at h
              · rename_i q hq
                injection h with h1 h2; subst h2
                have := parseStringBody_length hq
                omega
              · cases h
            · split at h
              · injection h with h1 h2; subst h2
                simp only [List.length_drop]; omega
              · split at h
                · injection h with h1 h2; subst h2
                  simp only [List.length_drop]; omega
                · split at h
                  · injection h with h1 h2; subst h2
                    simp only [List.length_drop]; omega
                  · split at h
                    · rename_i q hq
                      injection h with h1 h2; subst h2
                      have := parseNumber_length hq
                      simp only [List.length_cons] at this; omega
                    · cases h
    · intro s vs r h
      rw [parseElements] at h
      split at h
      · cases h
      · cases h
      · rename_i v r1 hv
        have hv' := ihV _ _ _ hv
        split at h
        · cases h
        · rename_i c rest hs
          have hs' := skipWs_cons_length hs
          split at h
          · injection h with h1 h2; subst h2; omega
          · split at h
            · split at h
              · rename_i vs2 r2 he
                injection h with h1 h2; subst h2
                have := ihE _ _ _ he
                omega
              · cases h
              · cases h
            · cases h
    · intro s ms r h
      rw [parseMembers] at h
      split at h
      · cases h
      · rename_i q afterQuote hs
        have hs' := skipWs_cons_length hs
        split at h
        · split at h
          · cases h
          · rename_i k hk
            have hk' := parseStringBody_length hk
            split at h
            · cases h
            · rename_i colon afterColon hs2
              have hs2' := skipWs_cons_length hs2
              split at h
              · split at h
                · cases h
                · cases h
                · rename_i v r1 hv
                  have hv' := ihV _ _ _ hv
                  split at h
                  · cases h
                  · rename_i c rest hs3
                    have hs3' := skipWs_cons_length hs3
                    split at h
                    · injection h with h1 h2; subst h2; omega
                    · split at h
                      · split at h
                        · rename_i ms2 r2 hm
                          injection h with h1 h2; subst h2
                          have := ihM _ _ _ hm
                          omega
                        · cases h
                        · cases h
                      · cases h
              · cases h
        · cases h

/-- A parser that runs out of budget had a budget of at most twice the length of
its input (plus one for the two list parsers). -/
theorem parse_fuel_bound : ∀ f : Nat,
    (∀ s, parseValue f s = .outOfFuel → f ≤ 2 * s.length)
    ∧ (∀ s, parseElements f s = .outOfFuel → f ≤ 2 * s.length + 1)
    ∧ (∀ s, parseMembers f s = .outOfFuel → f ≤ 2 * s.length + 1) := by
  intro f
  induction f with
  | zero => exact ⟨fun _ _ => Nat.zero_le _, fun _ _ => Nat.zero_le _, fun _ _ => Nat.zero_le _⟩
  | succ f ih =>
    obtain ⟨ihV, ihE, ihM⟩ := ih
    obtain ⟨leV, leE, leM⟩ := parse_rest_le f
    refine ⟨?_, ?_, ?_⟩
    · intro s h
      rw [parseValue] at h
      split at h
      · cases h
      · rename_i c rest hs
        have hs' := skipWs_cons_length hs
        split at h
        · split at h
          · cases h
          · rename_i d rest2 hs2
            have hs2' := skipWs_cons_length hs2
            split at h
            · cases h
            · split at h
              · cases h
              · cases h
              · rename_i hm
                have := ihM _ hm
                simp only [List.length_cons] at this; omega
        · split at h
          · split at h
            · cases h
            · rename_i d rest2 hs2
              have hs2' := skipWs_cons_length hs2
              split at h
              · cases h
              · split at h
                · cases h
                · cases h
                · rename_i hm
                  have := ihE _ hm
                  simp only [List.length_cons] at this; omega
          · split at h
            · split at h <;> cases h
            · split at h
              · cases h
              · split at h
                · cases h
                · split at h
                  · cases h
                  · split at h <;> cases h
    · intro s h
      rw [parseElements] at h
      split at h
      · cases h
      · rename_i hv
        have := ihV _ hv
        omega
      · rename_i v r1 hv
        have hv' := leV _ _ _ hv
        split at h
        · cases h
        · rename_i c rest hs
          have hs' := skipWs_cons_length hs
          split at h
          · cases h
          · split at h
            · split at h
              · cases h
              · cases h
              · rename_i he
                have := ihE _ he
                omega
            · cases h
    · intro s h
      rw [parseMembers] at h
      split at h
      · cases h
      · rename_i q afterQuote hs
        have hs' := skipWs_cons_length hs
        split at h
        · split at h
          · cases h
          · rename_i k hk
            have hk' := parseStringBody_length hk
            split at h
            · cases h
            · rename_i colon afterColon hs2
              have hs2' := skipWs_cons_length hs2
              split at h
              · split at h
                · cases h
                · rename_i hv
                  have := ihV _ hv
                  omega
                · rename_i v r1 hv
                  have hv' := leV _ _ _ hv
                  split at h
                  · cases h
                  · rename_i c rest hs3
                    have hs3' := skipWs_cons_length hs3
                    split at h
                    · cases h
                    · split at h
                      · split at h
                        · cases h
                        · cases h
                        · rename_i hm
                          have := ihM _ hm
                          omega
                      · cases h
              · cases h
        · cases h

/-- With the budget of `JSONparse`, `parseValue` never runs out of budget: it
returns a value or reports a syntax error. -/
theorem parseValue_fuel_adequate (text : JSString) :
    parseValue (2 * text.length + 2) text ≠ .outOfFuel := by
  intro h
  have := (parse_fuel_bound _).1 text h
  omega

/-! ## Fence stripping on texts without backticks -/

/-- Nothing is dropped from a list whose head fails the test. -/
theorem dropWhile_eq_self_of_head {p : Nat → Bool} {c : Nat} {l : JSString}
    (h : p c = false) : (c :: l).dropWhile p = c :: l := by
  simp [List.dropWhile, h]

/-- The method `trim` leaves a text unchanged when its first and last code units are not white space. -/
theorem trim_eq_self (s : JSString) (hne : s ≠ [])
    (hh : isWhiteSpace (s.head hne) = false)
    (hl : isWhiteSpace (s.getLast hne) = false) : trim s = s := by
  unfold trim
  have h1 : s.dropWhile isWhiteSpace = s := by
    cases s with
    | nil => exact absurd rfl hne
    | cons c l => exact dropWhile_eq_self_of_head hh
  rw [h1]
  have h2 : s.reverse ≠ [] := by simpa using hne
  have h3 : s.reverse.dropWhile isWhiteSpace = s.reverse := by
    cases hr : s.reverse with
    | nil => exact absurd hr h2
    | cons c l =>
      have : c = s.getLast hne := by
        have := List.head_reverse (l := s) h2
        rw [← this]
        simp [hr]
      exact dropWhile_eq_self_of_head (by rw [this]; exact hl)
  rw [h3, List.reverse_reverse]

/-- A scan that finds no match starting inside `s` keeps `s`. -/
theorem removeAll_append (pat : JSString) :
    ∀ (s t : JSString),
      (∀ a b : JSString, s = a ++ b → b ≠ [] → pat.isPrefixOf (b ++ t) = false) →
      removeAll pat 0 (s ++ t) = s ++ removeAll pat 0 t := by
  intro s
  induction s with
  | nil => intro t _; rfl
  | cons c rest ih =>
    intro t h
    have h0 : pat.isPrefixOf (c :: (rest ++ t)) = false := h [] (c :: rest) rfl (by simp)
    show removeAll pat 0 (c :: (rest ++ t)) = c :: (rest ++ removeAll pat 0 t)
    rw [removeAll, h0]
    simp only [Bool.false_eq_true, if_false]
    rw [ih t]
    intro a b hab hb
    exact h (c :: a) b (by rw [hab]; rfl) hb

/-- The fence is three backticks. -/
theorem fence_eq : fence = [96, 96, 96] := by decide
/-- The `json` fence is three backticks and the letters `json`. -/
theorem jsonFence_eq : jsonFence = [96, 96, 96, 106, 115, 111, 110] := by decide

/-- No match of a pattern that begins with three backticks starts inside a text
that has no three consecutive backticks and does not end with a backtick. -/
theorem no_match_inside (more s t : JSString) (hne : s ≠ [])
    (hl : s.getLast hne ≠ 96) (hf : ¬ fence <:+: s) :
    ∀ a b : JSString, s = a ++ b → b ≠ [] → (fence ++ more).isPrefixOf (b ++ t) = false := by
  intro a b hab hb
  cases hp : (fence ++ more).isPrefixOf (b ++ t) with
  | false => rfl
  | true =>
    exfalso
    rw [ List.isPrefixOf_iff_prefix] at hp
    have hp2 : fence <+: b ++ t := List.IsPrefix.trans ⟨more, rfl⟩ hp
    rw [fence_eq] at hp2 hf
    have hlast : s.getLast hne = b.getLast hb := by
      subst hab
      exact List.getLast_append_of_ne_nil hb
    match b, hb, hp2, hlast, hab with
    | [x], _, hp2, hlast, _ =>
      obtain ⟨u, hu⟩ := hp2
      simp at hu
      simp at hlast
      omega
    | [x, y], _, hp2, hlast, _ =>
      obtain ⟨u, hu⟩ := hp2
      simp at hu
      simp at hlast
      omega
    | x :: y :: z :: b2, _, hp2, _, hab =>
      obtain ⟨u, hu⟩ := hp2
      simp at hu
      obtain ⟨hx, hy, hz, _⟩ := hu
      apply hf
      refine ⟨a, b2, ?_⟩
      rw [hab, ← hx, ← hy, ← hz]
      simp

/-- Deleting the fences of a text without inner fences followed by a closing
fence gives the text. -/
theorem removeAll_fence_append (s : JSString) (hne : s ≠ [])
    (hl : s.getLast hne ≠ 96) (hf : ¬ fence <:+: s) :
    removeAll fence 0 (s ++ fence) = s := by
  have h := removeAll_append fence s fence (by
    have := no_match_inside [] s fence hne hl hf
    simpa using this)
  rw [h]
  have : removeAll fence 0 fence = [] := by decide
  rw [this, List.append_nil]

/-- Deleting the `json` fences of a text without inner fences followed by a
closing fence changes nothing. -/
theorem removeAll_jsonFence_append (s : JSString) (hne : s ≠ [])
    (hl : s.getLast hne ≠ 96) (hf : ¬ fence <:+: s) :
    removeAll jsonFence 0 (s ++ fence) = s ++ fence := by
  have h := removeAll_append jsonFence s fence (by
    have := no_match_inside [106, 115, 111, 110] s fence hne hl hf
    have e : fence ++ [106, 115, 111, 110] = jsonFence := by decide
    rw [e] at this
    exact this)
  rw [h]
  have : removeAll jsonFence 0 fence = fence := by decide
  rw [this]

/-- Outside the case of three backticks inside the JSON text, the three forms of
a response give the same text to `JSON.parse`. -/
theorem stripFences_wrapped (json : JSString) (hne : json ≠ [])
    (hh : isWhiteSpace (json.head hne) = false) (hh1 : json.head hne ≠ 96)
    (hh2 : json.head hne ≠ 106)
    (hl : isWhiteSpace (json.getLast hne) = false) (hl1 : json.getLast hne ≠ 96)
    (hf : ¬ fence <:+: json) :
    stripFences (trim json) = json
      ∧ stripFences (trim (wrapJsonFence json)) = json
      ∧ stripFences (trim (wrapPlainFence json)) = json := by
  have ht : trim json = json := trim_eq_self json hne hh hl
  have hlit : lit "```" = fence := rfl
  have hlitj : lit "```json\n" = 96 :: 96 :: 96 :: 106 :: 115 :: 111 :: 110 :: [10] := by decide
  have hlitp : lit "```" = [96, 96, 96] := by decide
  have hfl : ∀ x : JSString, (x ++ fence) ≠ [] := by intro x; simp [fence_eq]
  have hlast : ∀ (x : JSString) (h : x ++ fence ≠ []),
      isWhiteSpace ((x ++ fence).getLast h) = false := by
    intro x h
    rw [List.getLast_append_of_ne_nil (by decide : fence ≠ [])]
    decide
  have h10 : json.head? ≠ some 10 := by
    intro e
    have : json.head hne = 10 := by
      cases json with
      | nil => exact absurd rfl hne
      | cons c l => simpa using e
    rw [this] at hh
    exact absurd hh (by decide)
  refine ⟨?_, ?_, ?_⟩
  · rw [ht]
    cases json with
    | nil => exact absurd rfl hne
    | cons c l =>
      have hc : c ≠ 96 := hh1
      unfold stripFences
      simp [jsonFence_eq, fence_eq, List.isPrefixOf, Ne.symm hc]
  · have hw : wrapJsonFence json
        = 96 :: 96 :: 96 :: 106 :: 115 :: 111 :: 110 :: 10 :: (json ++ fence) := by
      unfold wrapJsonFence
      rw [hlitj, hlit]
      simp
    have htw : trim (wrapJsonFence json) = wrapJsonFence json := by
      apply trim_eq_self _ (by rw [hw]; simp)
      · simp only [hw, List.head_cons]; decide
      · have : wrapJsonFence json = (lit "```json\n" ++ json) ++ fence := by
          unfold wrapJsonFence; rw [hlit]
        simp only [this]
        exact hlast _ _
    rw [htw, hw]
    have hs : stripFences (96 :: 96 :: 96 :: 106 :: 115 :: 111 :: 110 :: 10 :: (json ++ fence))
        = trim (removeAll fence 0 (removeAll jsonFence 0 (json ++ fence))) := by
      unfold stripFences
      simp [jsonFence_eq, List.isPrefixOf, removeAll]
    rw [hs, removeAll_jsonFence_append json hne hl1 hf, removeAll_fence_append json hne hl1 hf, ht]
  · have hw : wrapPlainFence json = 96 :: 96 :: 96 :: (json ++ fence) := by
      unfold wrapPlainFence
      rw [hlitp, fence_eq]
      simp
    have htw : trim (wrapPlainFence json) = wrapPlainFence json := by
      apply trim_eq_self _ (by rw [hw]; simp)
      · simp only [hw, List.head_cons]; decide
      · have : wrapPlainFence json = (lit "```" ++ json) ++ fence := by
          unfold wrapPlainFence; rw [hlit]
        simp only [this]
        exact hlast _ _
    rw [htw, hw]
    have hs : stripFences (96 :: 96 :: 96 :: (json ++ fence))
        = trim (removeAll fence 0 (json ++ fence)) := by
      cases json with
      | nil => exact absurd rfl hne
      | cons c l =>
        have hc : c ≠ 106 := hh2
        have hc10 : c ≠ 10 := by
          intro e; apply h10; simp [e]
        unfold stripFences
        simp [jsonFence_eq, fence_eq, List.isPrefixOf, removeAll, Ne.symm hc, hc10]
    rw [hs, removeAll_fence_append json hne hl1 hf, ht]

/-- When the JSON text has no three consecutive backticks (and, as every JSON
text without outer white space, does not begin or end with a backtick or white
space and does not begin with `j`), `generateStudyGuide` returns the same
result for the text itself, for the text in a `json` fence and for the text in a
plain fence. -/
theorem generateStudyGuide_wrapped (text json : JSString) (hne : json ≠ [])
    (hh : isWhiteSpace (json.head hne) = false) (hh1 : json.head hne ≠ 96)
    (hh2 : json.head hne ≠ 106)
    (hl : isWhiteSpace (json.getLast hne) = false) (hl1 : json.getLast hne ≠ 96)
    (hf : ¬ fence <:+: json) :
    (generateStudyGuide (fun _ => .message (some (wrapJsonFence json))) text).1
        = (generateStudyGuide (fun _ => .message (some json)) text).1
      ∧ (generateStudyGuide (fun _ => .message (some (wrapPlainFence json))) text).1
        = (generateStudyGuide (fun _ => .message (some json)) text).1 := by
  obtain ⟨h1, h2, h3⟩ := stripFences_wrapped json hne hh hh1 hh2 hl hl1 hf
  simp only [generateStudyGuide_result, h1, h2, h3, and_self]

/-- The hypotheses of `generateStudyGuide_wrapped` hold for the JSON text `[1]`:
the three forms of the response give the same result. -/
theorem generateStudyGuide_wrapped_example :
    (generateStudyGuide (fun _ => .message (some (wrapJsonFence (lit "[1]")))) [97]).1
        = (generateStudyGuide (fun _ => .message (some (lit "[1]"))) [97]).1
      ∧ (generateStudyGuide (fun _ => .message (some (wrapPlainFence (lit "[1]")))) [97]).1
        = (generateStudyGuide (fun _ => .message (some (lit "[1]"))) [97]).1 :=
  generateStudyGuide_wrapped [97] (lit "[1]") (by decide) (by decide) (by decide) (by decide)
    (by decide) (by decide) (by decide)

/-! ## Fence stripping -/

/-- C4, the code at a failing input: the JSON text `{"cheatSheet":"```"}` is
valid and free of outer white space. Returned as it is, `generateStudyGuide`
yields the value it parses to; returned inside a `json` fence or inside a plain
fence, `generateStudyGuide` yields a different value, in which the three
backticks of the string are gone. -/
theorem generateStudyGuide_fence_in_content :
    JSONparse (lit "\x7b\"cheatSheet\":\"```\"\x7d")
        = some (.obj [(lit "cheatSheet", .str (lit "```"))])
      ∧ (generateStudyGuide
          (fun _ => .message (some (lit "\x7b\"cheatSheet\":\"```\"\x7d"))) [97]).1
        = .ok (.obj [(lit "cheatSheet", .str (lit "```"))])
      ∧ (generateStudyGuide
          (fun _ => .message (some (wrapJsonFence (lit "\x7b\"cheatSheet\":\"```\"\x7d")))) [97]).1
        = .ok (.obj [(lit "cheatSheet", .str [])])
      ∧ (generateStudyGuide
          (fun _ => .message (some (wrapPlainFence (lit "\x7b\"cheatSheet\":\"```\"\x7d")))) [97]).1
        = .ok (.obj [(lit "cheatSheet", .str [])])
      ∧ (generateStudyGuide
          (fun _ => .message (some (lit "```json\n\x7b\"cheatSheet\":\"```\"\x7d\n```"))) [97]).1
        = .ok (.obj [(lit "cheatSheet", .str [])]) := by
  refine ⟨?_, ?_, ?_, ?_, ?_⟩ <;> rfl

/-! ## Input validation of the handlers -/

/-- C1: for a request whose `text` is a string, `POST /generate` answers 400 if
and only if the text is empty or consists only of white space; in that case the
body is an object `{ error: message }` and the completion API is not called. -/
theorem postGenerate_status_400_iff (engine : Engine) (api : JSString → ApiResult)
    (text : JSString) :
    ((postGenerate engine api ⟨some text⟩).response.status = 400 ↔ isBlank text = true)
      ∧ (isBlank text = true →
          (postGenerate engine api ⟨some text⟩).apiCalls = []
            ∧ ∃ message,
              (postGenerate engine api ⟨some text⟩).response.body = errorBody message) := by
  cases hb : isBlank text with
  | false =>
    rw [postGenerate_nonblank engine api text hb]
    refine ⟨?_, fun h => absurd h (by decide)⟩
    cases (generateStudyGuide api text).1 with
    | error m => simp
    | ok v => simp only []; cases resJson engine v <;> simp
  | true =>
    rw [postGenerate_blank engine api text hb]
    exact ⟨⟨fun _ => rfl, fun _ => rfl⟩, fun _ => ⟨rfl, _, rfl⟩⟩

/-- C1, at concrete inputs: a text of spaces and tabs is answered 400 without a
call, the text `a` is not answered 400. -/
theorem postGenerate_status_400_iff_witness :
    (postGenerate Engine.plain (fun _ => .failure) ⟨some [32, 9, 32]⟩).response.status = 400
      ∧ (postGenerate Engine.plain (fun _ => .failure) ⟨some [32, 9, 32]⟩).apiCalls = []
      ∧ (postGenerate Engine.plain (fun _ => .failure) ⟨some [97]⟩).response.status ≠ 400 := by
  have h := postGenerate_status_400_iff Engine.plain (fun _ => .failure) [32, 9, 32]
  have h2 := postGenerate_status_400_iff Engine.plain (fun _ => .failure) [97]
  exact ⟨h.1.mpr (by decide), (h.2 (by decide)).1, fun e => absurd (h2.1.mp e) (by decide)⟩

/-- C5: `POST /upload` answers 400 when no file is attached and when the text
extracted from the attached file is empty or white space only, in both cases
without calling the completion API; it answers 500 when the extraction throws. -/
theorem postUpload_validation (engine : Engine) (api : JSString → ApiResult)
    (pdfParse : List Nat → PdfResult) :
    ((postUpload engine api pdfParse ⟨none⟩).response.status = 400
        ∧ (postUpload engine api pdfParse ⟨none⟩).apiCalls = [])
      ∧ (∀ (file : UploadedFile) (text : JSString),
          pdfParse file.buffer = .data text → isBlank text = true →
            (postUpload engine api pdfParse ⟨some file⟩).response.status = 400
              ∧ (postUpload engine api pdfParse ⟨some file⟩).apiCalls = [])
      ∧ (∀ (file : UploadedFile) (message : JSString),
          pdfParse file.buffer = .failure message →
            (postUpload engine api pdfParse ⟨some file⟩).response.status = 500) := by
  refine ⟨⟨rfl, rfl⟩, ?_, ?_⟩
  · intro file text hp hb
    have ht : trim text = [] := (trim_eq_nil_iff text).mpr hb
    have e : postUploadTry engine api pdfParse ⟨some file⟩
        = (.ok ⟨400, errorBody (lit "PDF appears to be empty or could not extract text")⟩,
            []) := by
      unfold postUploadTry
      simp only [hp]
      rw [if_pos ht]
    unfold postUpload
    rw [e]
    exact ⟨rfl, rfl⟩
  · intro file message hp
    have e : postUploadTry engine api pdfParse ⟨some file⟩ = (.error message, []) := by
      unfold postUploadTry
      simp only [hp]
    unfold postUpload
    rw [e]

/-- C5, at concrete inputs: an extractor that returns a line feed gives 400
without a call, an extractor that throws gives 500. -/
theorem postUpload_validation_witness :
    (postUpload Engine.plain (fun _ => .failure) (fun _ => .data [10])
        ⟨some ⟨lit "application/pdf", [37]⟩⟩).response.status = 400
      ∧ (postUpload Engine.plain (fun _ => .failure) (fun _ => .failure (lit "bad XRef"))
          ⟨some ⟨lit "application/pdf", [37]⟩⟩).response.status = 500 :=
  ⟨((postUpload_validation Engine.plain (fun _ => .failure) (fun _ => .data [10])).2.1
      ⟨lit "application/pdf", [37]⟩ [10] rfl (by decide)).1,
   (postUpload_validation Engine.plain (fun _ => .failure)
      (fun _ => .failure (lit "bad XRef"))).2.2
      ⟨lit "application/pdf", [37]⟩ (lit "bad XRef") rfl⟩

/-- C6: the upload file filter calls back with no error and `true` if and only
if the MIME type of the file is exactly `application/pdf`; for every other MIME
type it calls back with the error `Only PDF files are allowed` and `false`. -/
theorem fileFilter_accepts_iff (file : UploadedFile) :
    (fileFilter file = (none, true) ↔ file.mimetype = lit "application/pdf")
      ∧ (fileFilter file = (some (lit "Only PDF files are allowed"), false)
          ↔ file.mimetype ≠ lit "application/pdf")
      ∧ ((fileFilter file).2 = true ↔ file.mimetype = lit "application/pdf") := by
  unfold fileFilter
  by_cases h : file.mimetype = lit "application/pdf" <;> simp [h]

/-! ## The browser form -/

/-- The start of a generation keeps the text and the file. -/
theorem handleGenerateStart_fields (st : AppState) :
    (handleGenerateStart st).1.inputText = st.inputText
      ∧ (handleGenerateStart st).1.selectedFile = st.selectedFile := by
  unfold handleGenerateStart
  split
  · exact ⟨rfl, rfl⟩
  · split <;> exact ⟨rfl, rfl⟩

/-- The settling of a request keeps the text and the file. -/
theorem handleGenerateSettle_fields (result : HttpResult) (st : AppState) :
    (handleGenerateSettle result st).inputText = st.inputText
      ∧ (handleGenerateSettle result st).selectedFile = st.selectedFile := by
  cases result <;> exact ⟨rfl, rfl⟩

/-- A generation keeps the text and the file. -/
theorem handleGenerate_fields (http : HttpRequest → HttpResult) (st : AppState) :
    (handleGenerate http st).1.inputText = st.inputText
      ∧ (handleGenerate http st).1.selectedFile = st.selectedFile := by
  have h := handleGenerateStart_fields st
  unfold handleGenerate
  rcases hs : handleGenerateStart st with ⟨st1, reqs⟩
  rw [hs] at h
  cases reqs with
  | nil => exact h
  | cons req reqs =>
    have h2 := handleGenerateSettle_fields (http req) st1
    exact ⟨h2.1.trans h.1, h2.2.trans h.2⟩

/-- Every event preserves the invariant of the form. -/
theorem step_invariant (st : AppState) (e : Event) (h : FormInvariant st) :
    FormInvariant (step st e) := by
  have transfer : ∀ st2 : AppState, st2.inputText = st.inputText →
      st2.selectedFile = st.selectedFile → FormInvariant st2 := by
    intro st2 h1 h2
    unfold FormInvariant
    rw [h1, h2]
    exact h
  cases e with
  | fileChange file =>
    cases file with
    | none => exact ⟨fun c => c.2 rfl, fun f hf => by cases hf⟩
    | some f =>
      by_cases ht : f.type = lit "application/pdf"
      · have e : step st (.fileChange (some f))
            = { st with selectedFile := some f, inputText := [], error := none } := by
          show handleFileChange (some f) st = _
          unfold handleFileChange
          simp only [ht, if_true]
        rw [e]
        refine ⟨fun c => c.1 rfl, fun g hg => ?_⟩
        have : f = g := by simpa using hg
        rw [← this]; exact ht
      · have e : step st (.fileChange (some f))
            = { st with error := some (lit "Please select a PDF file"), selectedFile := none } := by
          show handleFileChange (some f) st = _
          unfold handleFileChange
          simp only [ht, if_false]
        rw [e]
        exact ⟨fun c => c.2 rfl, fun g hg => by cases hg⟩
  | textChange value => exact ⟨fun c => c.2 rfl, fun f hf => by cases hf⟩
  | generate http =>
    exact transfer _ (handleGenerate_fields http st).1 (handleGenerate_fields http st).2
  | generateStart =>
    exact transfer _ (handleGenerateStart_fields st).1 (handleGenerateStart_fields st).2
  | generateSettle result =>
    exact transfer _ (handleGenerateSettle_fields result st).1
      (handleGenerateSettle_fields result st).2
  | reset => exact ⟨fun c => c.2 rfl, fun f hf => by cases hf⟩

/-- Every sequence of events preserves the invariant of the form. -/
theorem foldl_step_invariant (events : List Event) :
    ∀ st : AppState, FormInvariant st → FormInvariant (events.foldl step st) := by
  induction events with
  | nil => intro st h; exact h
  | cons e es ih => intro st h; exact ih _ (step_invariant st e h)

/-- C8: from the initial state, after every sequence of file changes, text
changes, generations (run to completion, or started and settled with other
events in between) and resets, it is never the case that `inputText` is
non-empty while `selectedFile` is non-null, and a non-null `selectedFile` has
the type `application/pdf`. -/
theorem run_form_invariant (events : List Event) :
    ¬ ((run events).inputText ≠ [] ∧ (run events).selectedFile ≠ none)
      ∧ ∀ f, (run events).selectedFile = some f → f.type = lit "application/pdf" :=
  foldl_step_invariant events AppState.initial
    ⟨fun c => c.1 rfl, fun f hf => by cases hf⟩

/-- The request `handleGenerate` issues for a file. -/
theorem handleGenerateStart_file (st : AppState) (f : File)
    (hf : st.selectedFile = some f) :
    handleGenerateStart st
      = ({ st with loading := true, error := none, studyGuide := none },
          [⟨lit "/upload", .multipart [(lit "pdf", f)]⟩]) := by
  unfold handleGenerateStart
  rw [hf]
  simp

/-- The request `handleGenerate` issues for pasted text. -/
theorem handleGenerateStart_text (st : AppState) (hf : st.selectedFile = none)
    (hb : isBlank st.inputText = false) :
    handleGenerateStart st
      = ({ st with loading := true, error := none, studyGuide := none },
          [⟨lit "/generate", .json (.obj [(lit "text", .str st.inputText)])⟩]) := by
  have ht : trim st.inputText ≠ [] := by
    intro e; rw [trim_eq_nil_iff, hb] at e; exact absurd e (by decide)
  unfold handleGenerateStart
  rw [hf]
  simp [ht]

/-- Nothing is issued for a blank text without a file. -/
theorem handleGenerateStart_blank (st : AppState) (hf : st.selectedFile = none)
    (hb : isBlank st.inputText = true) :
    handleGenerateStart st
      = ({ st with error := some (lit "Please paste text or upload a PDF file") }, []) := by
  have ht : trim st.inputText = [] := (trim_eq_nil_iff _).mpr hb
  unfold handleGenerateStart
  rw [hf, ht]
  simp

/-- After the settling of a request `loading` is `false`. -/
theorem handleGenerateSettle_loading (result : HttpResult) (st : AppState) :
    (handleGenerateSettle result st).loading = false := by
  cases result <;> rfl

/-- C9: when `inputText` is blank and no file is selected, `handleGenerate`
issues no request and only sets the error message (`loading`, `studyGuide`,
`inputText` and `selectedFile` keep their values). Otherwise it issues exactly
one POST: to `/upload` with the multipart field `pdf` when a file is selected,
to `/generate` with the body `{ text: inputText }` when none is; and whether
the request resolves or rejects, `loading` is `false` at the end. -/
theorem handleGenerate_requests (http : HttpRequest → HttpResult) (st : AppState) :
    (st.selectedFile = none → isBlank st.inputText = true →
        handleGenerate http st
          = ({ st with error := some (lit "Please paste text or upload a PDF file") }, []))
      ∧ (∀ f, st.selectedFile = some f →
          (handleGenerate http st).2 = [⟨lit "/upload", .multipart [(lit "pdf", f)]⟩]
            ∧ (handleGenerate http st).1.loading = false)
      ∧ (st.selectedFile = none → isBlank st.inputText = false →
          (handleGenerate http st).2
              = [⟨lit "/generate", .json (.obj [(lit "text", .str st.inputText)])⟩]
            ∧ (handleGenerate http st).1.loading = false)
      ∧ (∀ (result : HttpResult) (st2 : AppState),
          (handleGenerateSettle result st2).loading = false) := by
  refine ⟨?_, ?_, ?_, handleGenerateSettle_loading⟩
  · intro hf hb
    unfold handleGenerate
    rw [handleGenerateStart_blank st hf hb]
  · intro f hf
    unfold handleGenerate
    rw [handleGenerateStart_file st f hf]
    exact ⟨rfl, handleGenerateSettle_loading _ _⟩
  · intro hf hb
    unfold handleGenerate
    rw [handleGenerateStart_text st hf hb]
    exact ⟨rfl, handleGenerateSettle_loading _ _⟩

/-- C9, at concrete states: a form holding spaces issues nothing and keeps
`loading`; a form holding the text `a` issues one POST to `/generate` and ends
with `loading = false` when the request rejects; a form holding a PDF issues one
POST to `/upload`. -/
theorem handleGenerate_requests_witness :
    (handleGenerate (fun _ => .rejected ⟨none, lit "Network Error"⟩)
        ⟨[32, 32], none, true, none, none⟩).2 = []
      ∧ (handleGenerate (fun _ => .rejected ⟨none, lit "Network Error"⟩)
        ⟨[32, 32], none, true, none, none⟩).1.loading = true
      ∧ (handleGenerate (fun _ => .rejected ⟨none, lit "Network Error"⟩)
        ⟨[97], none, false, none, none⟩).2
          = [⟨lit "/generate", .json (.obj [(lit "text", .str [97])])⟩]
      ∧ (handleGenerate (fun _ => .rejected ⟨none, lit "Network Error"⟩)
        ⟨[97], none, false, none, none⟩).1.loading = false
      ∧ (handleGenerate (fun _ => .resolved .null)
        ⟨[], some ⟨lit "a.pdf", lit "application/pdf"⟩, false, none, none⟩).2
          = [⟨lit "/upload", .multipart [(lit "pdf", ⟨lit "a.pdf", lit "application/pdf"⟩)]⟩] := by
  have h1 := (handleGenerate_requests (fun _ => .rejected ⟨none, lit "Network Error"⟩)
    ⟨[32, 32], none, true, none, none⟩).1 rfl (by decide)
  have h2 := (handleGenerate_requests (fun _ => .rejected ⟨none, lit "Network Error"⟩)
    ⟨[97], none, false, none, none⟩).2.2.1 rfl (by decide)
  have h3 := (handleGenerate_requests (fun _ => .resolved .null)
    ⟨[], some ⟨lit "a.pdf", lit "application/pdf"⟩, false, none, none⟩).2.1 _ rfl
  refine ⟨?_, ?_, h2.1, h2.2, h3.1⟩
  · rw [h1]
  · rw [h1]

end StudyGuide
